import Mathlib

/-!
Verification of the CrossWater river-network graph and aggregation core.

The definitions below are a shallow embedding of the Python sources
`crosswater/routing_model/aqu_comp.py` and
`crosswater/routing_model/upstreamaggregation.py`.  Catchment identifiers
are strings (the sources convert integer ids to strings on load); tables
are lists of rows; Python dicts built by `setdefault(...).append(...)` are
insertion-ordered association lists; float-valued discharge and load
columns are modelled over the integers, which is faithful for the
row-selection and summation structure the claims are about.  Unbounded
`while` loops are given an explicit fuel parameter and return `none` when
the fuel is exhausted before the loop's exit condition is reached.
-/

/-- Direction parameter of `Connections` (`'up'` / `'down'`). -/
inductive Dir
| up
| down
deriving DecidableEq

/-- The `active_ids` argument of `Connections.__init__`: absent (`None`),
a collection of id strings, or — as passed by `Links.compartment_links`
and `Links.upstream_tributaries` — one single id string. -/
inductive ActiveIds
| noneA
| listA (l : List String)
| strA (s : String)

/-- Python truthiness of `self.active_ids` in `if self.active_ids:`:
`None`, the empty list and the empty string are falsy. -/
def truthy : ActiveIds → Bool
| ActiveIds.noneA => false
| ActiveIds.listA l => !l.isEmpty
| ActiveIds.strA s => !s.isEmpty

/-- Python substring containment: `needle in hay` for strings is true iff
`needle` occurs as a contiguous substring of `hay`. -/
def isSubstr (needle hay : List Char) : Bool :=
  (List.range (hay.length + 1)).any
    (fun i => decide ((hay.drop i).take needle.length = needle))

/-- The Python expression `id_ in self.active_ids` of
`Connections.connections`: list membership for a collection, substring
containment for a single string. -/
def pyIn (k : String) : ActiveIds → Bool
| ActiveIds.noneA => true
| ActiveIds.listA l => decide (k ∈ l)
| ActiveIds.strA s => isSubstr k.toList s.toList

/-- `connections.setdefault(next_id, []).append(id_)`: append a value to
the entry of `key`, creating the entry at the end on first use (Python
dicts are insertion-ordered). -/
def addEdge : List (String × List String) → String → String → List (String × List String)
| [], key, v => [(key, [v])]
| (k', vs) :: rest, key, v =>
    if k' = key then (k', vs ++ [v]) :: rest else (k', vs) :: addEdge rest key v

/-- Dict lookup (`connections.get(id_)`). -/
def lookupA (m : List (String × List String)) (k : String) : Option (List String) :=
  match m with
  | [] => none
  | (k', vs) :: rest => if k' = k then some vs else lookupA rest k

/-- Key/value orientation of one table row `(WSO1_ID, NEXTDOWNID)`:
direction `'up'` keys on `NEXTDOWNID` with the upstream id as value,
direction `'down'` keys on `WSO1_ID` with the downstream id as value. -/
def keyVal (dir : Dir) (r : String × String) : String × String :=
  match dir with
  | Dir.up => (r.2, r.1)
  | Dir.down => (r.1, r.2)

/-- The unfiltered connection dict of `Connections.connections`, built by
one pass over the `(WSO1_ID, NEXTDOWNID)` rows. -/
def buildMap (rows : List (String × String)) (dir : Dir) : List (String × List String) :=
  rows.foldl (fun m r => addEdge m (keyVal dir r).1 (keyVal dir r).2) []

/-- `Connections.connections`: the inverted edge dict, filtered by
`id_ in self.active_ids` when `active_ids` is truthy. -/
def connections (rows : List (String × String)) (dir : Dir) (active : ActiveIds) :
    List (String × List String) :=
  let m := buildMap rows dir
  if truthy active then m.filter (fun kv => pyIn kv.1 active) else m

/-- One round of the frontier expansion in `UpstreamCatchments.upstream_ids`:
`list(itertools.chain(*filter(None.__ne__, [conn.connections.get(id_) for id_ in outlets])))`. -/
def upstreamStep (rows : List (String × String)) (outlets : List String) : List String :=
  outlets.flatMap (fun i => (lookupA (connections rows Dir.up ActiveIds.noneA) i).getD [])

/-- The `while outlets:` loop of `upstream_ids`, with explicit fuel: the
source loop has no iteration bound, so `none` means the loop is still
running after `fuel` iterations. -/
def upstream_loop (rows : List (String × String)) :
    Nat → List String → List String → Option (List String)
| _, ids, [] => some ids
| 0, _, _ :: _ => none
| fuel + 1, ids, o₁ :: o =>
    let nxt := upstreamStep rows (o₁ :: o)
    upstream_loop rows fuel (ids ++ nxt) nxt

/-- `UpstreamCatchments.upstream_ids(catchment_dbf_file, id_outlet)`. -/
def upstream_ids (rows : List (String × String)) (id_outlet : String) (fuel : Nat) :
    Option (List String) :=
  upstream_loop rows fuel [id_outlet] [id_outlet]

/-- `id drains into next` in one step, read off the edge table. -/
def edgeRel (rows : List (String × String)) (a b : String) : Prop := (a, b) ∈ rows

/-- Downstream-to-upstream paths over the edge table: `UpPath rows x l o`
holds when following edges from `x` reaches `o`, and `l` lists the nodes
traversed strictly before `o` (so `l.length` is the number of steps). -/
inductive UpPath (rows : List (String × String)) : String → List String → String → Prop
| nil (o : String) : UpPath rows o [] o
| cons {x y o : String} {l : List String} :
    (x, y) ∈ rows → UpPath rows y l o → UpPath rows x (x :: l) o

/-- Iterated frontier expansion. -/
def stepIter (rows : List (String × String)) : Nat → List String → List String
| 0, o => o
| j + 1, o => stepIter rows j (upstreamStep rows o)

/-- The frontier becomes empty within `fuel` more rounds. -/
def emptiesWithin (rows : List (String × String)) : Nat → List String → Prop
| 0, o => o = []
| f + 1, o => o = [] ∨ emptiesWithin rows f (upstreamStep rows o)

/-- `Tributaries.ids_tributary_outlets`: ids directly connected upstream to
the river segments that are not river segments themselves. -/
def ids_tributary_outlets (catchRows : List (String × String)) (network : List String) :
    List String :=
  ((connections catchRows Dir.up (ActiveIds.listA network)).flatMap Prod.snd).filter
    (fun i => !decide (i ∈ network))

/-- `Compartments.get_junctions`: keys of the network-restricted upstream
dict whose value set meets the key set in two or more elements.  Note the
source intersects with `key_set` — the network ids that have at least one
upstream catchment — not with `ids_riversegments` as its docstring says. -/
def get_junctions (catchRows : List (String × String)) (network : List String) : List String :=
  let conn := connections catchRows Dir.up (ActiveIds.listA network)
  let keySet := conn.map Prod.fst
  (conn.filter (fun kv => decide (1 < ((kv.2.dedup).filter (fun v => decide (v ∈ keySet))).length))).map
    Prod.fst

/-- `Compartments.get_headwater`: network ids with no upstream connection
in the riversegments table. -/
def get_headwater (riverRows : List (String × String)) (network : List String) : List String :=
  let conn := connections riverRows Dir.up (ActiveIds.listA network)
  network.filter (fun i => !decide (i ∈ conn.map Prod.fst))

/-- Outcome of `Compartments.nr_div`: the (possibly clamped) compartment
count, the number of extra divisions, and whether the degraded-mode
warning was printed. -/
structure DivisionOutcome where
  nrComp : Int
  nrDiv : Int
  warned : Bool
deriving DecidableEq

/-- `Compartments.nr_div`: `nr_div = nr_comp - (2*len(junctions)+1)`;
when negative, print a warning, clamp `nr_comp` and use zero. -/
def nr_div (nrComp nrRivers : Int) : DivisionOutcome :=
  let d := nrComp - nrRivers
  if d < 0 then ⟨nrRivers, 0, true⟩ else ⟨nrComp, d, false⟩

/-- `self.nr_comp = int(config['routing_model']['nr_compartments']) + 1`
(`Compartments.__init__`, the "+1 workaround" flagged in the source). -/
def nr_comp_of_config (nrCompartments : Int) : Int := nrCompartments + 1

/-- `len(self.ids_junctions)*2+1` — the natural compartment count. -/
def nr_rivers (junctions : List String) : Nat := junctions.length * 2 + 1

/-- Area of one tributary outlet (`self.areas_tributaries.get`). -/
def areaOf (areas : List (String × Int)) (k : String) : Int :=
  ((areas.find? (fun p => p.1 = k)).map Prod.snd).getD 0

/-- Stable insertion into a descending-by-area list (a later key is placed
after earlier keys of equal area, as Python's stable `sorted` does). -/
def insDesc (areas : List (String × Int)) (k : String) : List String → List String
| [] => [k]
| x :: xs => if areaOf areas k ≥ areaOf areas x then k :: x :: xs else x :: insDesc areas k xs

/-- `sorted(keys, key=self.areas_tributaries.get, reverse=True)`. -/
def sortDesc (areas : List (String × Int)) : List String → List String
| [] => []
| x :: xs => insDesc areas x (sortDesc areas xs)

/-- `Compartments.get_advective_inlets`.  The source computes
`s_exclude` and calls `s_outlets.discard(s_exclude)`, but Python's
`set.discard` with a set argument looks up the frozenset of that whole
set as a single element, so nothing is ever removed from `s_outlets`;
the exclusion step therefore has no effect and is modelled as such. -/
def get_advective_inlets (catchRows : List (String × String)) (ids_headwater : List String)
    (areas_tributaries : List (String × Int)) (nrDiv : Nat) : List String :=
  let sOutlets := areas_tributaries.map Prod.fst
  let _sExclude :=
    (connections catchRows Dir.down (ActiveIds.listA ids_headwater)).flatMap Prod.snd
  let keys := (areas_tributaries.map Prod.fst).filter (fun k => decide (k ∈ sOutlets))
  let outlets := (sortDesc areas_tributaries keys).take nrDiv
  if outlets.isEmpty then []
  else (connections catchRows Dir.down (ActiveIds.listA outlets)).flatMap Prod.snd

/-- `Compartments.ids_up`: advective inlets, headwaters and junctions with
duplicates removed (`list(set(...))`; the set's iteration order is not
deterministic in the source, deduplication order is a modelling choice). -/
def ids_up (inlets headwaters junctions : List String) : List String :=
  (inlets ++ headwaters ++ junctions).dedup

/-- `conn.connections.get(id_)[0]` in `Compartments.compartments`: the
single downstream id of `id_`, `none` when the key is missing (the source
would raise there). -/
def nextDown (connDown : List (String × List String)) (i : String) : Option String :=
  (lookupA connDown i).bind List.head?

/-- The inner `while nextid not in self.ids_up and nextid != '-9999':`
walk of `Compartments.compartments`, with fuel for the unbounded loop. -/
def comp_walk (connDown : List (String × List String)) (idsUp : List String) :
    Nat → List String → String → Option (List String)
| 0, acc, nextid =>
    if decide (nextid ∈ idsUp) || decide (nextid = "-9999") then some acc else none
| fuel + 1, acc, nextid =>
    if decide (nextid ∈ idsUp) || decide (nextid = "-9999") then some acc
    else
      match nextDown connDown nextid with
      | none => none
      | some n2 => comp_walk connDown idsUp fuel (acc ++ [nextid]) n2

/-- `Compartments.compartments`: walk downstream from every compartment
head, collecting ids until the next head or the terminal sentinel;
compartment names are `'C' + head`. -/
def compartments (riverRows : List (String × String)) (network idsUp : List String)
    (fuel : Nat) : Option (List (String × List String)) :=
  let connDown := connections riverRows Dir.down (ActiveIds.listA network)
  idsUp.mapM (fun h =>
    match nextDown connDown h with
    | none => none
    | some n => (comp_walk connDown idsUp fuel [h] n).map (fun ids => ("C" ++ h, ids)))

/-- One row of a per-timestep source table (`catchment, discharge, load,
local_discharge`); the float columns are modelled over the integers. -/
structure SrcRow where
  catchment : String
  discharge : Int
  load : Int
  localDischarge : Int
deriving DecidableEq

/-- One output row of `upstreamaggregation.Aggregate` (`OutputValues`). -/
structure UpOutRec where
  outlet : String
  discharge : Int
  loadAggregated : Int
  localDischargeAggregated : Int
deriving DecidableEq

/-- One output row of `aqu_comp.Aggregate` (`OutputValues`). -/
structure CompOutRec where
  compartment : String
  discharge : Int
  loadAggregated : Int
deriving DecidableEq

/-- The body of `upstreamaggregation.Aggregate._write_upstream_input` for
one outlet: loads and local discharges are summed over the rows whose
catchment is in the outlet's upstream id set (`.isin(ids)`), while
discharge is read from the single row whose catchment equals the outlet
(`in_table.catchment[in_table.catchment == outlet].index.item()` — the
`.item()` call raises unless exactly one row matches, modelled as
`none`). -/
def write_upstream_input (tbl : List SrcRow) (outlet : String) (ids : List String) :
    Option UpOutRec :=
  match tbl.filter (fun row => decide (row.catchment = outlet)) with
  | [r] => some
      { outlet := outlet
        discharge := r.discharge
        loadAggregated :=
          ((tbl.filter (fun row => decide (row.catchment ∈ ids))).map SrcRow.load).sum
        localDischargeAggregated :=
          ((tbl.filter (fun row => decide (row.catchment ∈ ids))).map SrcRow.localDischarge).sum }
  | _ => none

/-- One whole timestep of `_write_upstream_input`: a record per outlet;
an exception at any outlet aborts the timestep (`none`), nothing is
flushed. -/
def write_upstream_input_step (tbl : List SrcRow)
    (upstreamInput : List (String × List String)) : Option (List UpOutRec) :=
  upstreamInput.mapM (fun p => write_upstream_input tbl p.1 p.2)

/-- The body of `aqu_comp.Aggregate._write_lateral_input` for one
compartment: load is summed over `lateral_input` (tributary closures plus
the compartment's own ids), discharge is summed over the compartment's
`lateral_tributaries` id set — both full `.isin(...).sum()` reductions.
The `local_discharge` column is not read on this path. -/
def write_lateral_input (tbl : List SrcRow) (compartment : String)
    (lateralInput lateralTributaries : List String) : CompOutRec :=
  { compartment := compartment
    discharge :=
      ((tbl.filter (fun row => decide (row.catchment ∈ lateralTributaries))).map
        SrcRow.discharge).sum
    loadAggregated :=
      ((tbl.filter (fun row => decide (row.catchment ∈ lateralInput))).map SrcRow.load).sum }

/-- The spec's worked aggregation example: catchments `x`, `y`, `z` with
loads `{x:1, y:2, z:3}` and discharges `{x:5, y:5, z:20}`. -/
def exTbl : List SrcRow := [⟨"x", 5, 1, 0⟩, ⟨"y", 5, 2, 0⟩, ⟨"z", 20, 3, 0⟩]

/-- The spec's 5-node chain `a→b→c→d→e` (as `"1"→…→"5"`), terminal
`-9999` below `e`. -/
def chain5 : List (String × String) :=
  [("1", "2"), ("2", "3"), ("3", "4"), ("4", "5"), ("5", "-9999")]

/-- A single self-loop edge: a cycle reachable from outlet `"1"`. -/
def loopRows : List (String × String) := [("1", "1")]

/-- Network for the partition counterexample: two headwaters `1`, `2`
joining at `3`, which drains to the terminal; the full catchment table
equals the network (no branch has any further upstream catchment). -/
def c2Rows : List (String × String) := [("1", "3"), ("2", "3"), ("3", "-9999")]

/-- The reduced river-segment ids of `c2Rows`. -/
def c2Network : List String := ["1", "2", "3"]

/-- Catchment table for the advective-inlet counterexample: tributary
outlet `9` drains into network headwater `1`, tributary outlet `8` drains
into `2`; the network is the chain `1→2→-9999`. -/
def c5CatchRows : List (String × String) :=
  [("9", "1"), ("8", "2"), ("1", "2"), ("2", "-9999")]

/-- Riversegments table of the advective-inlet counterexample. -/
def c5RiverRows : List (String × String) := [("1", "2"), ("2", "-9999")]

/-- Network ids of the advective-inlet counterexample. -/
def c5Network : List String := ["1", "2"]

/-- Tributary drainage areas: the outlet feeding the headwater has the
largest area. -/
def c5Areas : List (String × Int) := [("9", 100), ("8", 50)]

/-- Riversegments rows for the substring-filter example: ids `123` and
`5123` with downstream neighbors `7` and `9`. -/
def linksRows : List (String × String) := [("123", "7"), ("5123", "9")]

theorem sum_filter_map_int {α : Type} (l : List α) (p : α → Bool) (f : α → Int) :
    ((l.filter p).map f).sum = (l.map fun a => if p a then f a else 0).sum := by
  induction l with
  | nil => rfl
  | cons a t ih =>
    by_cases h : p a
    · simp [List.filter_cons, h, ih]
    · simp [List.filter_cons, h, ih]

theorem mapM_eq_none_of_mem {α β : Type} (l : List α) (f : α → Option β) (x : α)
    (hx : x ∈ l) (hf : f x = none) : l.mapM f = none := by
  induction l with
  | nil => cases hx
  | cons a t ih =>
    rw [List.mapM_cons]
    rcases List.mem_cons.mp hx with rfl | hx'
    · rw [hf]; rfl
    · cases hfa : f a
      · rfl
      · simp only [hfa, ih hx']
        rfl

theorem lookupA_filter (m : List (String × List String)) (q : String → Bool) (k : String) :
    lookupA (m.filter (fun kv => q kv.1)) k = if q k then lookupA m k else none := by
  induction m with
  | nil => cases hq : q k <;> simp [lookupA, hq]
  | cons kv rest ih =>
    obtain ⟨k', vs⟩ := kv
    by_cases hq : q k'
    · rw [List.filter_cons_of_pos (by simpa using hq)]
      by_cases hk : k' = k
      · subst hk
        simp [lookupA, hq]
      · simp only [lookupA, if_neg hk]
        exact ih
    · rw [List.filter_cons_of_neg (by simpa using hq)]
      by_cases hk : k' = k
      · subst hk
        rw [ih, if_neg (by simpa using hq)]
        simp [lookupA, Bool.of_not_eq_true hq]
      · rw [ih]
        simp only [lookupA, if_neg hk]

theorem map_fst_filter (m : List (String × List String)) (q : String → Bool) :
    (m.filter (fun kv => q kv.1)).map Prod.fst = (m.map Prod.fst).filter q := by
  induction m with
  | nil => rfl
  | cons kv rest ih => cases hq : q kv.1 <;> simp [List.filter_cons, hq, ih]

/-- C6: requesting fewer compartments than the natural count
`2 × junctions + 1` warns and clamps (`nr_div = 0`); at or above the
natural count there is no warning and `nr_div` is the difference.  No
error is raised in either case (`nr_div` is a total function).  The
value compared against the natural count is `self.nr_comp`, which
`Compartments.__init__` sets to the configured count plus one
(`nr_comp_of_config`). -/
theorem nr_div_clamps_and_warns (nrComp : Int) (junctions : List String) :
    nr_div nrComp (nr_rivers junctions) =
      (if nrComp < (nr_rivers junctions : Int) then ⟨(nr_rivers junctions : Int), 0, true⟩
        else ⟨nrComp, nrComp - (nr_rivers junctions : Int), false⟩ : DivisionOutcome) := by
  unfold nr_div
  rcases lt_or_le nrComp ((nr_rivers junctions : Int)) with h | h
  · rw [if_pos (by omega), if_pos h]
  · rw [if_neg (by omega), if_neg (not_lt.mpr h)]

/-- C1: in `upstreamaggregation`, for any timestep table the aggregated
load is the sum of the `load` values of all rows whose catchment is in
the id set, while the aggregated discharge is the discharge value of the
outlet's single row alone (the witness instantiates this at the spec's
example: loads `{x:1,y:2,z:3}` give 6 and discharges `{x:5,y:5,z:20}`
give 20, not 30). -/
theorem upstream_aggregation_semantics (tbl : List SrcRow) (outlet : String)
    (ids : List String) (r : SrcRow)
    (h : tbl.filter (fun row => decide (row.catchment = outlet)) = [r]) :
    write_upstream_input tbl outlet ids = some
      { outlet := outlet
        discharge := r.discharge
        loadAggregated := (tbl.map fun row => if row.catchment ∈ ids then row.load else 0).sum
        localDischargeAggregated :=
          (tbl.map fun row => if row.catchment ∈ ids then row.localDischarge else 0).sum } := by
  unfold write_upstream_input
  rw [h]
  simp only [sum_filter_map_int, decide_eq_true_eq]

/-- Witness for C1 at the spec's concrete example. -/
theorem upstream_aggregation_semantics_witness :
    exTbl.filter (fun row => decide (row.catchment = "z")) = [⟨"z", 20, 3, 0⟩] ∧
    write_upstream_input exTbl "z" ["x", "y", "z"] = some ⟨"z", 20, 6, 0⟩ :=
  ⟨by decide,
    (upstream_aggregation_semantics exTbl "z" ["x", "y", "z"] ⟨"z", 20, 3, 0⟩ (by decide)).trans
      (by decide)⟩

/-- C4: if the designated outlet id is absent from a timestep's source
table, `.item()` finds no matching row and the upstream aggregation of
that timestep fails (`none`) — no record with a substituted zero
discharge is produced and the timestep is not written. -/
theorem missing_outlet_is_fatal (tbl : List SrcRow)
    (upstreamInput : List (String × List String)) (outlet : String) (ids : List String)
    (hmem : (outlet, ids) ∈ upstreamInput)
    (habs : ∀ row ∈ tbl, row.catchment ≠ outlet) :
    write_upstream_input_step tbl upstreamInput = none := by
  have hrec : write_upstream_input tbl outlet ids = none := by
    have hfil : tbl.filter (fun row => decide (row.catchment = outlet)) = [] := by
      rw [List.filter_eq_nil_iff]
      intro a ha
      simp [habs a ha]
    unfold write_upstream_input
    rw [hfil]
  exact mapM_eq_none_of_mem upstreamInput _ (outlet, ids) hmem hrec

/-- Witness for C4: a table holding only catchment `x` while the outlet
list expects outlet `z`. -/
theorem missing_outlet_is_fatal_witness :
    write_upstream_input_step [⟨"x", 5, 1, 0⟩] [("z", ["x", "z"])] = none :=
  missing_outlet_is_fatal [⟨"x", 5, 1, 0⟩] [("z", ["x", "z"])] "z" ["x", "z"] (by decide)
    (by decide)

/-- C3: lateral-mode aggregation sums the discharge over every member of
the lateral tributary id set (and the load over every member of the
lateral input set); on the spec's example id set `{x,y,z}` with
discharges `{x:5,y:5,z:20}` the lateral discharge is the full sum 30,
in contrast to the upstream-outlet read of the same table, which gives
20. -/
theorem lateral_discharge_full_sum (tbl : List SrcRow) (compartment : String)
    (lateralInput lateralTributaries : List String) :
    ((write_lateral_input tbl compartment lateralInput lateralTributaries).discharge
        = (tbl.map fun row => if row.catchment ∈ lateralTributaries then row.discharge else 0).sum)
    ∧ ((write_lateral_input tbl compartment lateralInput lateralTributaries).loadAggregated
        = (tbl.map fun row => if row.catchment ∈ lateralInput then row.load else 0).sum)
    ∧ (write_lateral_input exTbl "C1" ["x", "y", "z"] ["x", "y", "z"]).discharge = 30
    ∧ (write_upstream_input exTbl "z" ["x", "y", "z"]).map UpOutRec.discharge = some 20 := by
  refine ⟨?_, ?_, by decide, by decide⟩
  · simp only [write_lateral_input, sum_filter_map_int, decide_eq_true_eq]
  · simp only [write_lateral_input, sum_filter_map_int, decide_eq_true_eq]

/-- C2 (code bug): on the valid network `{1,2,3}` — a single connected
tree with both branches `1→3`, `2→3` joining at `3` and one terminal
sentinel below `3` — node `3` is a confluence with two in-network
upstream neighbors, yet `get_junctions` returns no junction (its
`key_set` intersection sees neither branch, as neither has a further
upstream catchment), so the produced partition assigns segment `3` to
both compartments: union covers the network but disjointness fails. -/
theorem partition_overlap_on_bare_confluence :
    (lookupA (buildMap c2Rows Dir.up) "3").getD [] = ["1", "2"]
    ∧ get_junctions c2Rows c2Network = []
    ∧ get_headwater c2Rows c2Network = ["1", "2"]
    ∧ ids_tributary_outlets c2Rows c2Network = []
    ∧ compartments c2Rows c2Network
        (ids_up (get_advective_inlets c2Rows (get_headwater c2Rows c2Network) [] 0)
          (get_headwater c2Rows c2Network) (get_junctions c2Rows c2Network)) 10
        = some [("C1", ["1", "3"]), ("C2", ["2", "3"])]
    ∧ ("3" ∈ (["1", "3"] : List String)) ∧ ("3" ∈ (["2", "3"] : List String)) := by decide

/-- C5 (code bug): tributary outlet `9` has the largest drainage area and
drains into network headwater `1`; with `nr_div = 1` the source's
ineffective `s_outlets.discard(s_exclude)` removes nothing, so
`get_advective_inlets` returns the headwater `1` as an additional
compartment head, although its own docstring promises inlets "that are
not in ids_headwater". -/
theorem headwater_inlet_is_added :
    get_headwater c5RiverRows c5Network = ["1"]
    ∧ ids_tributary_outlets c5CatchRows c5Network = ["9", "8"]
    ∧ get_advective_inlets c5CatchRows (get_headwater c5RiverRows c5Network) c5Areas 1 = ["1"]
    ∧ "1" ∈ get_headwater c5RiverRows c5Network := by decide

/-- C8: on the 5-node chain `1→2→3→4→5` with terminal `-9999` below `5`,
`upstream_ids` at outlet `5` returns exactly the set `{1,…,5}` and at
outlet `3` exactly `{1,2,3}`, with the queried outlet as the first
element of each returned list. -/
theorem chain_closure_exact :
    upstream_ids chain5 "5" 6 = some ["5", "4", "3", "2", "1"]
    ∧ upstream_ids chain5 "3" 6 = some ["3", "2", "1"]
    ∧ (["5", "4", "3", "2", "1"] : List String).Perm ["1", "2", "3", "4", "5"]
    ∧ (["3", "2", "1"] : List String).Perm ["1", "2", "3"]
    ∧ (["5", "4", "3", "2", "1"] : List String).head? = some "5"
    ∧ (["3", "2", "1"] : List String).head? = some "3" := by decide

/-- C9: with a non-empty `active_ids` collection, the connection map keeps
exactly the keys of the unfiltered map that are members of `active_ids`,
and every surviving key's value list is identical to its unfiltered value
list (value lists are not filtered and may retain inactive ids). -/
theorem active_list_filters_keys_only (rows : List (String × String)) (dir : Dir)
    (act : List String) (k : String) (hne : act ≠ []) :
    ((connections rows dir (ActiveIds.listA act)).map Prod.fst
        = ((connections rows dir ActiveIds.noneA).map Prod.fst).filter
            (fun x => decide (x ∈ act)))
    ∧ lookupA (connections rows dir (ActiveIds.listA act)) k
        = (if k ∈ act then lookupA (connections rows dir ActiveIds.noneA) k else none) := by
  have hempty : act.isEmpty = false := by
    cases act with
    | nil => exact absurd rfl hne
    | cons a t => rfl
  have hconn : connections rows dir (ActiveIds.listA act)
      = (buildMap rows dir).filter (fun kv => decide (kv.1 ∈ act)) := by
    simp [connections, truthy, hempty, pyIn]
  have hnone : connections rows dir ActiveIds.noneA = buildMap rows dir := by
    simp [connections, truthy]
  constructor
  · rw [hconn, hnone]
    exact map_fst_filter (buildMap rows dir) (fun x => decide (x ∈ act))
  · rw [hconn, hnone, lookupA_filter (buildMap rows dir) (fun x => decide (x ∈ act)) k]
    by_cases hk : k ∈ act
    · rw [if_pos (by simpa using hk), if_pos hk]
    · rw [if_neg (by simpa using hk), if_neg hk]

/-- Witness for C9: edge `a→b`, active collection `["b"]` — key `b`
survives with its full value list `["a"]` even though `a` is inactive. -/
theorem active_list_filters_keys_only_witness :
    ((connections [("a", "b")] Dir.up (ActiveIds.listA ["b"])).map Prod.fst
        = ((connections [("a", "b")] Dir.up ActiveIds.noneA).map Prod.fst).filter
            (fun x => decide (x ∈ ["b"])))
    ∧ lookupA (connections [("a", "b")] Dir.up (ActiveIds.listA ["b"])) "b"
        = (if "b" ∈ ["b"]
            then lookupA (connections [("a", "b")] Dir.up ActiveIds.noneA) "b" else none) :=
  active_list_filters_keys_only [("a", "b")] Dir.up ["b"] "b" (by decide)

theorem isSubstr_iff (needle hay : List Char) : isSubstr needle hay = true ↔ needle <:+: hay := by
  unfold isSubstr
  rw [List.any_eq_true]
  constructor
  · rintro ⟨i, _, hdec⟩
    rw [decide_eq_true_eq] at hdec
    have h2 : hay.take i ++ ((hay.drop i).take needle.length
        ++ (hay.drop i).drop needle.length) = hay := by
      rw [List.take_append_drop, List.take_append_drop]
    rw [hdec] at h2
    refine ⟨hay.take i, (hay.drop i).drop needle.length, ?_⟩
    rw [List.append_assoc]
    exact h2
  · rintro ⟨s, t, hst⟩
    have h3 : s ++ (needle ++ t) = hay := by rw [← List.append_assoc, hst]
    refine ⟨s.length, ?_, ?_⟩
    · rw [List.mem_range]
      have h4 : s.length + (needle.length + t.length) = hay.length := by
        rw [← h3, List.length_append, List.length_append]
      omega
    · rw [decide_eq_true_eq, ← h3, List.drop_left, List.take_left]

/-- C10: when `Connections` receives a single id string as `active_ids`
(as `Links.compartment_links` and `Links.upstream_tributaries` pass it),
a key survives the filter iff it is a contiguous substring of that id
string; consequently on `linksRows` with active string `"5123"` the key
`"123"` also survives, and the first chained value of the resulting map
is `"7"` — not `"9"`, the actual downstream neighbor of `"5123"`. -/
theorem single_string_active_substring_filter (rows : List (String × String)) (dir : Dir)
    (s k : String) (hs : s ≠ "") :
    (k ∈ (connections rows dir (ActiveIds.strA s)).map Prod.fst
        ↔ k ∈ (connections rows dir ActiveIds.noneA).map Prod.fst ∧ k.toList <:+: s.toList)
    ∧ (connections linksRows Dir.down (ActiveIds.strA "5123")).map Prod.fst = ["123", "5123"]
    ∧ ((connections linksRows Dir.down (ActiveIds.strA "5123")).flatMap Prod.snd).head?
        = some "7"
    ∧ lookupA (connections linksRows Dir.down ActiveIds.noneA) "5123" = some ["9"]
    ∧ ("7" : String) ≠ "9" := by
  refine ⟨?_, by decide, by decide, by decide, by decide⟩
  have hempty : s.isEmpty = false := by
    rw [Bool.eq_false_iff]
    intro hemp
    exact hs ((String.isEmpty_iff s).mp hemp)
  have hconn : connections rows dir (ActiveIds.strA s)
      = (buildMap rows dir).filter (fun kv => isSubstr kv.1.toList s.toList) := by
    simp [connections, truthy, hempty, pyIn]
  have hnone : connections rows dir ActiveIds.noneA = buildMap rows dir := by
    simp [connections, truthy]
  rw [hconn, hnone,
    map_fst_filter (buildMap rows dir) (fun x => isSubstr x.toList s.toList),
    List.mem_filter, isSubstr_iff]

/-- Witness for C10 at the concrete rows, active string `"5123"` and
surviving foreign key `"123"`. -/
theorem single_string_active_substring_filter_witness :
    (("123" : String) ∈ (connections linksRows Dir.down (ActiveIds.strA "5123")).map Prod.fst
        ↔ ("123" : String) ∈ (connections linksRows Dir.down ActiveIds.noneA).map Prod.fst
            ∧ ("123" : String).toList <:+: ("5123" : String).toList)
    ∧ (connections linksRows Dir.down (ActiveIds.strA "5123")).map Prod.fst = ["123", "5123"]
    ∧ ((connections linksRows Dir.down (ActiveIds.strA "5123")).flatMap Prod.snd).head?
        = some "7"
    ∧ lookupA (connections linksRows Dir.down ActiveIds.noneA) "5123" = some ["9"]
    ∧ ("7" : String) ≠ "9" :=
  single_string_active_substring_filter linksRows Dir.down "5123" "123" (by decide)

theorem lookupA_addEdge_self (m : List (String × List String)) (key v : String) :
    lookupA (addEdge m key v) key = some ((lookupA m key).getD [] ++ [v]) := by
  induction m with
  | nil => simp [addEdge, lookupA]
  | cons kv rest ih =>
    obtain ⟨k', vs⟩ := kv
    by_cases h : k' = key
    · subst h
      simp [addEdge, lookupA]
    · simp [addEdge, lookupA, h, ih]

theorem lookupA_addEdge_ne (m : List (String × List String)) (key v k : String)
    (h : key ≠ k) : lookupA (addEdge m key v) k = lookupA m k := by
  induction m with
  | nil => simp [addEdge, lookupA, h]
  | cons kv rest ih =>
    obtain ⟨k', vs⟩ := kv
    by_cases hk : k' = key
    · subst hk
      simp [addEdge, lookupA, h]
    · by_cases hkk : k' = k
      · subst hkk
        simp [addEdge, lookupA, hk, Ne.symm h]
      · simp [addEdge, lookupA, hk, hkk, ih]

theorem mem_lookupA_addEdge (m : List (String × List String)) (key v k x : String) :
    x ∈ (lookupA (addEdge m key v) k).getD []
      ↔ x ∈ (lookupA m k).getD [] ∨ (k = key ∧ x = v) := by
  by_cases h : key = k
  · subst h
    rw [lookupA_addEdge_self]
    simp
  · rw [lookupA_addEdge_ne m key v k h]
    have hne : ¬(k = key) := fun hkk => h hkk.symm
    simp [hne]

theorem mem_lookupA_foldl (dir : Dir) (rows : List (String × String)) :
    ∀ (m : List (String × List String)) (k x : String),
      x ∈ (lookupA (rows.foldl (fun acc r => addEdge acc (keyVal dir r).1 (keyVal dir r).2) m)
            k).getD []
        ↔ x ∈ (lookupA m k).getD [] ∨ (k, x) ∈ rows.map (keyVal dir) := by
  induction rows with
  | nil =>
    intro m k x
    simp
  | cons r rest ih =>
    intro m k x
    rw [List.foldl_cons, ih, mem_lookupA_addEdge]
    simp only [List.map_cons, List.mem_cons, Prod.ext_iff]
    tauto

theorem mem_ups (rows : List (String × String)) (i x : String) :
    x ∈ (lookupA (connections rows Dir.up ActiveIds.noneA) i).getD [] ↔ (x, i) ∈ rows := by
  have hnone : connections rows Dir.up ActiveIds.noneA = buildMap rows Dir.up := by
    simp [connections, truthy]
  rw [hnone]
  unfold buildMap
  rw [mem_lookupA_foldl]
  simp only [lookupA, Option.getD_none, List.not_mem_nil, false_or]
  constructor
  · intro h
    obtain ⟨⟨a, b⟩, hmem, heq⟩ := List.mem_map.mp h
    simp only [keyVal, Prod.mk.injEq] at heq
    obtain ⟨h1, h2⟩ := heq
    subst h1
    subst h2
    exact hmem
  · intro h
    exact List.mem_map.mpr ⟨(x, i), h, rfl⟩

theorem mem_upstreamStep (rows : List (String × String)) (outlets : List String) (x : String) :
    x ∈ upstreamStep rows outlets ↔ ∃ i ∈ outlets, (x, i) ∈ rows := by
  unfold upstreamStep
  rw [List.mem_flatMap]
  constructor
  · rintro ⟨i, hi, hx⟩
    exact ⟨i, hi, (mem_ups rows i x).mp hx⟩
  · rintro ⟨i, hi, hx⟩
    exact ⟨i, hi, (mem_ups rows i x).mpr hx⟩

theorem upPath_extend {rows : List (String × String)} {z : String} :
    ∀ {x l y}, UpPath rows x l y → (y, z) ∈ rows → UpPath rows x (l ++ [y]) z := by
  intro x l y hp
  induction hp with
  | nil o =>
    intro he
    exact UpPath.cons he (UpPath.nil z)
  | @cons x' y' o' l' hxy hp' ih =>
    intro he
    rw [List.cons_append]
    exact UpPath.cons hxy (ih he)

theorem upPath_reach {rows : List (String × String)} :
    ∀ {x l o}, UpPath rows x l o → ∀ z ∈ l, Relation.ReflTransGen (edgeRel rows) x z := by
  intro x l o hp
  induction hp with
  | nil o =>
    intro z hz
    cases hz
  | @cons x' y' o' l' hxy hp' ih =>
    intro z hz
    rcases List.mem_cons.mp hz with rfl | hz'
    · exact Relation.ReflTransGen.refl
    · exact Relation.ReflTransGen.head hxy (ih z hz')

theorem upPath_keys {rows : List (String × String)} :
    ∀ {x l o}, UpPath rows x l o → ∀ z ∈ l, z ∈ rows.map Prod.fst := by
  intro x l o hp
  induction hp with
  | nil o =>
    intro z hz
    cases hz
  | @cons x' y' o' l' hxy hp' ih =>
    intro z hz
    rcases List.mem_cons.mp hz with rfl | hz'
    · exact List.mem_map.mpr ⟨(z, y'), hxy, rfl⟩
    · exact ih z hz'

theorem upPath_nodup {rows : List (String × String)}
    (hacyc : ∀ a, ¬ Relation.TransGen (edgeRel rows) a a) :
    ∀ {x l o}, UpPath rows x l o → l.Nodup := by
  intro x l o hp
  induction hp with
  | nil o => exact List.nodup_nil
  | @cons x' y' o' l' hxy hp' ih =>
    rw [List.nodup_cons]
    refine ⟨?_, ih⟩
    intro hmem
    have hreach : Relation.ReflTransGen (edgeRel rows) y' x' := upPath_reach hp' x' hmem
    exact hacyc y' (Relation.TransGen.trans_right hreach (Relation.TransGen.single hxy))

theorem stepIter_path (rows : List (String × String)) :
    ∀ (j : Nat) (o : List String) (x : String),
      x ∈ stepIter rows j o → ∃ y ∈ o, ∃ l, UpPath rows x l y ∧ l.length = j := by
  intro j
  induction j with
  | zero =>
    intro o x hx
    exact ⟨x, hx, [], UpPath.nil x, rfl⟩
  | succ j ih =>
    intro o x hx
    simp only [stepIter] at hx
    obtain ⟨y, hy, l, hpath, hlen⟩ := ih (upstreamStep rows o) x hx
    obtain ⟨i, hi, hedge⟩ := (mem_upstreamStep rows o y).mp hy
    exact ⟨i, hi, l ++ [y], upPath_extend hpath hedge, by simp [hlen]⟩

theorem stepIter_len_le (rows : List (String × String)) (outlet : String)
    (hacyc : ∀ a, ¬ Relation.TransGen (edgeRel rows) a a) (j : Nat) (x : String)
    (hx : x ∈ stepIter rows j [outlet]) : j ≤ rows.length := by
  obtain ⟨y, _, l, hpath, hlen⟩ := stepIter_path rows j [outlet] x hx
  have hnd : l.Nodup := upPath_nodup hacyc hpath
  have hsub : l ⊆ rows.map Prod.fst := fun z hz => upPath_keys hpath z hz
  have hle := (List.subperm_of_subset hnd hsub).length_le
  rw [hlen, List.length_map] at hle
  exact hle

theorem stepIter_empty (rows : List (String × String)) (outlet : String)
    (hacyc : ∀ a, ¬ Relation.TransGen (edgeRel rows) a a) :
    stepIter rows (rows.length + 1) [outlet] = [] := by
  by_contra h
  obtain ⟨x, hx⟩ := List.exists_mem_of_ne_nil _ h
  have := stepIter_len_le rows outlet hacyc (rows.length + 1) x hx
  omega

theorem emptiesWithin_of_stepIter (rows : List (String × String)) :
    ∀ (f : Nat) (o : List String), stepIter rows f o = [] → emptiesWithin rows f o := by
  intro f
  induction f with
  | zero =>
    intro o h
    exact h
  | succ f ih =>
    intro o h
    simp only [stepIter] at h
    exact Or.inr (ih _ h)

theorem loop_isSome_of_empties (rows : List (String × String)) :
    ∀ (fuel : Nat) (o ids : List String),
      emptiesWithin rows fuel o → (upstream_loop rows fuel ids o).isSome = true := by
  intro fuel
  induction fuel with
  | zero =>
    intro o ids h
    have h' : o = [] := h
    subst h'
    rfl
  | succ f ih =>
    intro o ids h
    cases o with
    | nil => rfl
    | cons o₁ ot =>
      have h' : (o₁ :: ot = []) ∨ emptiesWithin rows f (upstreamStep rows (o₁ :: ot)) := h
      rcases h' with h' | h'
      · cases h'
      · exact ih (upstreamStep rows (o₁ :: ot)) (ids ++ upstreamStep rows (o₁ :: ot)) h'

/-- C7 (amended, termination half): on every acyclic connectivity input
the `while outlets:` loop of `upstream_ids` exits — fuel one larger than
the edge count always suffices, because after `j` rounds every frontier
member has a duplicate-free downstream path of `j` distinct edge-table
keys to the outlet. -/
theorem upstream_ids_terminates_acyclic (rows : List (String × String)) (outlet : String)
    (hacyc : ∀ a, ¬ Relation.TransGen (edgeRel rows) a a) :
    (upstream_ids rows outlet (rows.length + 1)).isSome = true := by
  unfold upstream_ids
  exact loop_isSome_of_empties rows (rows.length + 1) [outlet] [outlet]
    (emptiesWithin_of_stepIter rows (rows.length + 1) [outlet]
      (stepIter_empty rows outlet hacyc))

theorem chainEdgeAcyclic : ∀ a, ¬ Relation.TransGen (edgeRel [("1", "2")]) a a := by
  have key : ∀ a b, Relation.TransGen (edgeRel [("1", "2")]) a b → a = "1" ∧ b = "2" := by
    intro a b h
    induction h with
    | single h1 =>
      have h2 := List.mem_singleton.mp h1
      rw [Prod.mk.injEq] at h2
      exact h2
    | tail h1 h2 ih =>
      have h3 := List.mem_singleton.mp h2
      rw [Prod.mk.injEq] at h3
      exfalso
      have h4 := h3.1
      rw [ih.2] at h4
      exact absurd h4 (by decide)
  intro a h
  have h5 := key a a h
  exact absurd (h5.1.symm.trans h5.2) (by decide)

/-- Witness for C7's amended termination statement on the acyclic
one-edge input `1→2`. -/
theorem upstream_ids_terminates_acyclic_witness :
    (upstream_ids [("1", "2")] "2" 2).isSome = true :=
  upstream_ids_terminates_acyclic [("1", "2")] "2" chainEdgeAcyclic

theorem loop_never_returns :
    ∀ (fuel : Nat) (ids : List String), upstream_loop loopRows fuel ids ["1"] = none := by
  intro fuel
  induction fuel with
  | zero =>
    intro ids
    rfl
  | succ f ih =>
    intro ids
    have hstep : upstreamStep loopRows ["1"] = ["1"] := by decide
    show upstream_loop loopRows f (ids ++ upstreamStep loopRows ["1"])
        (upstreamStep loopRows ["1"]) = none
    rw [hstep]
    exact ih (ids ++ ["1"])

/-- C7 counterexample: on the cyclic input `1→1`, a cycle reachable from
the queried outlet `1`, `upstream_ids` never returns — the frontier never
empties, no iteration bound exists and no error is raised (no
`MalformedNetworkError` exists in the source), contradicting the claim
that a cycle leads to a fatal error after a bounded number of
iterations. -/
theorem cycle_never_terminates_no_error :
    ¬ ∃ fuel res, upstream_ids loopRows "1" fuel = some res := by
  rintro ⟨fuel, res, h⟩
  rw [upstream_ids, loop_never_returns fuel ["1"]] at h
  cases h
